import Mathlib

/-!
Shallow embedding of the dox execution engine (github.com/skorokithakis/dox).

The definitions below transcribe the Go source:
- `internal/config/types.go`: `CommandConfig`, `BuildConfig` (the latest
  revision additionally carries `Network` and `Ports` string fields, which are
  used by `internal/runtime/podman.go`).
- `internal/runtime/podman.go` (latest revision of each): `DockerRuntime.ExecuteCommand`,
  `PodmanRuntime.ExecuteCommand`, `parsePortMappings`, `isTerminal`.
- `internal/utils/signals.go`: `SetupSignalHandler`, `CleanupSignalHandler`.
- `internal/cli/run.go`: the exit-code plumbing of `runCommand`.
- `internal/cli/upgrade.go`: the image-resolution part of `newUpgradeCommand`.

External world interactions (the Docker daemon / podman binary, the host
environment, terminals) are modelled by oracles (`Engine`, `Host`) that fix
the outcome of each call, and the engine calls made are recorded as an
event trace.
-/

namespace Dox

/-- Type `BuildConfig` from internal/config/types.go: inline Dockerfile content. -/
structure BuildConfig where
  dockerfileInline : String
deriving Repr, DecidableEq

/-- Type `CommandConfig` from internal/config/types.go (latest revision, with the
network and ports fields referenced by the latest `DockerRuntime.ExecuteCommand`). -/
structure CommandConfig where
  image : String
  build : Option BuildConfig
  volumes : List String
  environment : List String
  command : String
  network : String
  ports : List String
deriving Repr, DecidableEq

/-- The guard `cfg.Build != nil && cfg.Build.DockerfileInline != ""` used
throughout podman.go. -/
def CommandConfig.hasInlineBuild (cfg : CommandConfig) : Bool :=
  match cfg.build with
  | some b => b.dockerfileInline != ""
  | none => false

/-- Host-process state consumed by ExecuteCommand: `os.Getenv`, `os.Getwd`,
`os.Getuid`/`os.Getgid`, the `os.ModeCharDevice` bits of stdin/stdout
(`isTerminal` in podman.go), and `utils.GetTerminalSize`. -/
structure Host where
  getenv : String → String
  cwd : String
  uid : Nat
  gid : Nat
  stdinIsCharDevice : Bool
  stdoutIsCharDevice : Bool
  termWidth : Nat
  termHeight : Nat

/-- Function `isTerminal` (podman.go): both stdin and stdout must be character devices. -/
def isTerminal (host : Host) : Bool :=
  host.stdinIsCharDevice && host.stdoutIsCharDevice

/-- Splitting loop of Go `strings.Split` on character lists: cut at each
leftmost non-overlapping occurrence of the (non-empty) separator.  The fuel
argument (instantiated with the input length, which bounds the recursion
depth) makes the recursion structural. -/
def goSplitFuel (sep : List Char) : Nat → List Char → List Char → List (List Char)
  | _, acc, [] => [acc.reverse]
  | 0, acc, l => [acc.reverse ++ l]
  | fuel + 1, acc, c :: rest =>
    if sep.isPrefixOf (c :: rest) then
      acc.reverse :: goSplitFuel sep fuel [] ((c :: rest).drop sep.length)
    else goSplitFuel sep fuel (c :: acc) rest

/-- Go `strings.Split(s, sep)` for a non-empty separator. -/
def goSplit (s sep : String) : List String :=
  (goSplitFuel sep.data (s.data.length + 1) [] s.data).map (fun cs => String.mk cs)

/-- Go `strings.Contains(s, sub)` for a non-empty `sub`. -/
def goStringContains (s sub : String) : Bool :=
  (goSplit s sub).length != 1

/-- ASCII lower-casing of one character. -/
def charToLower (c : Char) : Char :=
  if 'A' ≤ c ∧ c ≤ 'Z' then Char.ofNat (c.toNat + 32) else c

/-- Go `strings.ToLower` (ASCII range, which is all the port parser needs). -/
def goToLower (s : String) : String :=
  String.mk (s.data.map charToLower)

/-- Go `strconv.ParseUint(s, 10, 16)`: digits only, non-empty, at most 65535. -/
def goParseUint16 (s : String) : Option Nat :=
  if s = "" then none
  else if s.data.all Char.isDigit then
    let v := s.data.foldl (fun acc c => acc * 10 + (c.toNat - 48)) 0
    if v ≤ 65535 then some v else none
  else none

/-! ### The go-connections `nat` port-spec parser

`parsePortMappings` in podman.go delegates to `nat.ParsePortSpec` from
github.com/docker/go-connections.  The helpers below transcribe that
library's `splitParts`, `SplitProtoPort`, `ParsePortRange`, `validateProto`
and `ParsePortSpec`. -/

/-- Helper `splitParts` (go-connections nat): split `ip:host:container` on `:`. -/
def splitParts (rawport : String) : String × String × String :=
  let parts := goSplit rawport ":"
  let n := parts.length
  match parts with
  | [c] => ("", "", c)
  | [hp, c] => ("", hp, c)
  | [ip, hp, c] => (ip, hp, c)
  | _ =>
    (String.intercalate ":" (parts.take (n - 2)), parts.getD (n - 2) "",
      parts.getD (n - 1) "")

/-- Helper `SplitProtoPort` (go-connections nat). -/
def splitProtoPort (rawPort : String) : String × String :=
  let parts := goSplit rawPort "/"
  match parts with
  | [] => ("", "")
  | p0 :: rest =>
    if rawPort = "" ∨ p0 = "" then ("", "")
    else
      match rest with
      | [] => ("tcp", rawPort)
      | p1 :: _ => if p1 = "" then ("tcp", p0) else (p1, p0)

/-- Helper `validateProto` (go-connections nat). -/
def validateProto (proto : String) : Bool :=
  proto = "tcp" || proto = "udp" || proto = "sctp"

/-- Helper `ParsePortRange` (go-connections nat): `"80"` or `"80-90"`, 16-bit. -/
def parsePortRange (ports : String) : Option (Nat × Nat) :=
  if ports = "" then none
  else if (goSplit ports "-").length = 1 then
    (goParseUint16 ports).map (fun v => (v, v))
  else
    let parts := goSplit ports "-"
    match goParseUint16 (parts.getD 0 ""), goParseUint16 (parts.getD 1 "") with
    | some s, some e => if e < s then none else some (s, e)
    | _, _ => none

/-- Validity of a host-IP string, standing in for `net.ParseIP` (an external
standard-library call); modelled as a dotted-quad IPv4 check.  Only the
success/failure of the overall parse depends on it. -/
def parseIPOk (s : String) : Bool :=
  let parts := goSplit s "."
  parts.length = 4 && parts.all (fun p =>
    p != "" && p.data.all Char.isDigit && p.length ≤ 3 &&
      p.data.foldl (fun acc c => acc * 10 + (c.toNat - 48)) 0 ≤ 255)

/-- Type `nat.PortBinding`: host IP and host port of one binding. -/
structure PortBinding where
  hostIP : String
  hostPort : String
deriving Repr, DecidableEq

/-- Type `nat.PortMapping`: a container port (`"80/tcp"`) with its host binding. -/
structure PortMapping where
  port : String
  binding : PortBinding
deriving Repr, DecidableEq

/-- Function `nat.ParsePortSpec` (go-connections): parse one `host[:ip]:container[/proto]`
mapping, expanding numeric ranges. -/
def parsePortSpec (rawPort : String) : Option (List PortMapping) :=
  let (rawIP, hostPort, containerPort0) := splitParts rawPort
  let (proto, containerPort) := splitProtoPort containerPort0
  if rawIP != "" && !parseIPOk rawIP then none
  else if containerPort = "" then none
  else
    match parsePortRange containerPort with
    | none => none
    | some (startPort, endPort) =>
      match (if hostPort.length > 0 then parsePortRange hostPort else some (0, 0)) with
      | none => none
      | some (startHost, endHost) =>
        if hostPort != "" && (endPort - startPort != endHost - startHost) &&
            endPort != startPort then none
        else if !validateProto (goToLower proto) then none
        else
          some ((List.range (endPort - startPort + 1)).map (fun i =>
            let cp := toString (startPort + i)
            let hp0 := if hostPort.length > 0 then toString (startHost + i) else hostPort
            let hp := if startPort = endPort && startHost != endHost
              then hp0 ++ "-" ++ toString endHost else hp0
            { port := cp ++ "/" ++ (goToLower proto)
              binding := { hostIP := rawIP, hostPort := hp } }))

/-- Assignment `m[k] = v` on a Go map, modelled on an insertion-ordered
association list. -/
def mapSet (m : List (String × List PortBinding)) (k : String) (v : List PortBinding) :
    List (String × List PortBinding) :=
  match m with
  | [] => [(k, v)]
  | (k0, v0) :: rest => if k0 = k then (k, v) :: rest else (k0, v0) :: mapSet rest k v

/-- Insertion of a key into a Go set-valued map, modelled on an ordered list. -/
def setAdd (s : List String) (k : String) : List String :=
  if k ∈ s then s else s ++ [k]

/-- The inner loop of `parsePortMappings`: record every mapping of one port spec. -/
def addMappings (acc : List (String × List PortBinding) × List String)
    (ms : List PortMapping) : List (String × List PortBinding) × List String :=
  ms.foldl (fun acc m => (mapSet acc.1 m.port [m.binding], setAdd acc.2 m.port)) acc

/-- Loop of `parsePortMappings` (podman.go): fold `ParsePortSpec` over the
declared port strings, failing on the first invalid one. -/
def parsePortMappingsAux (ports : List String)
    (acc : List (String × List PortBinding) × List String) :
    Option (List (String × List PortBinding) × List String) :=
  match ports with
  | [] => some acc
  | p :: rest =>
    match parsePortSpec p with
    | none => none
    | some ms => parsePortMappingsAux rest (addMappings acc ms)

/-- Function `parsePortMappings` (podman.go): returns the port-binding table and the
exposed-port set. -/
def parsePortMappings (ports : List String) :
    Option (List (String × List PortBinding) × List String) :=
  parsePortMappingsAux ports ([], [])

/-! ### Environment and command construction -/

/-- Entry formatting `fmt.Sprintf("%s=%s", name, value)`. -/
def mkEnvEntry (name value : String) : String := name ++ "=" ++ value

/-- The environment loop shared by both ExecuteCommand variants: forward a
declared name only when `os.Getenv` returns a non-empty value. -/
def buildEnv (getenv : String → String) (names : List String) : List String :=
  names.filterMap (fun n => if getenv n = "" then none else some (mkEnvEntry n (getenv n)))

/-- The argv construction shared by both variants: a command override is
prepended to the user args; with no override, args are passed verbatim (an
empty list lets the image entrypoint run). -/
def buildCmd (cfg : CommandConfig) (args : List String) : List String :=
  if cfg.command != "" then cfg.command :: args
  else if args.length > 0 then args
  else []

/-- The container-creation request of the Docker variant: `container.Config`
plus `container.HostConfig` as filled in by `DockerRuntime.ExecuteCommand`
(latest revision). -/
structure ContainerRequest where
  image : String
  cmd : List String
  env : List String
  user : String
  workingDir : Option String
  attachStdin : Bool
  attachStdout : Bool
  attachStderr : Bool
  openStdin : Bool
  tty : Bool
  exposedPorts : List String
  autoRemove : Bool
  binds : List String
  networkMode : Option String
  portBindings : List (String × List PortBinding)
  consoleSize : Option (Nat × Nat)
deriving Repr, DecidableEq

/-- The request-construction section of `DockerRuntime.ExecuteCommand`
(podman.go, latest revision, the straight-line code between the inline-build
block and `ContainerCreate`).  Returns `none` when `parsePortMappings` fails,
which makes the call return exit code 1 with an error. -/
def buildContainerRequest (host : Host) (cfg : CommandConfig) (args : List String) :
    Option ContainerRequest :=
  let tty := isTerminal host
  let portInfo :=
    if cfg.ports.length > 0 && cfg.network != "host" then parsePortMappings cfg.ports
    else some ([], [])
  match portInfo with
  | none => none
  | some (portBindings, exposedPorts) =>
    some {
      image := cfg.image
      cmd := buildCmd cfg args
      env := buildEnv host.getenv cfg.environment
      user := toString host.uid ++ ":" ++ toString host.gid
      workingDir := if cfg.hasInlineBuild then none else some "/workspace"
      attachStdin := true
      attachStdout := true
      attachStderr := true
      openStdin := true
      tty := tty
      exposedPorts := exposedPorts
      autoRemove := true
      binds := (host.cwd ++ ":/workspace") :: cfg.volumes
      networkMode := if cfg.network != "" then some cfg.network else none
      portBindings := portBindings
      consoleSize := if tty then some (host.termHeight, host.termWidth) else none }

/-- The argument list built by `PodmanRuntime.ExecuteCommand` for
`podman run` (podman.go lines 61-99): note the unconditional `-it`,
`--network=host` and `-w /workspace`. -/
def podmanArgs (host : Host) (cfg : CommandConfig) (args : List String) : List String :=
  ["run", "--rm", "-it"]
    ++ ["--network=host"]
    ++ ["--user=" ++ toString host.uid ++ ":" ++ toString host.gid]
    ++ ["-w", "/workspace"]
    ++ ["-v", host.cwd ++ ":/workspace"]
    ++ (cfg.volumes.map (fun v => ["-v", v])).flatten
    ++ ((buildEnv host.getenv cfg.environment).map (fun e => ["-e", e])).flatten
    ++ [cfg.image]
    ++ buildCmd cfg args

/-! ### Engine oracle, events and the execution controller -/

/-- Outcome of the first `ContainerCreate` call, classifying the error string
the same way the code does (`strings.Contains(err.Error(), "No such image")`). -/
inductive CreateOutcome
  | ok
  | noSuchImage
  | otherErr
deriving Repr, DecidableEq

/-- Outcome of the `select` over `ContainerWait`'s channels and `ctx.Done()`. -/
inductive WaitOutcome
  | waitErr
  | exited (code : Int)
  | ctxDone
deriving Repr, DecidableEq

/-- Outcome of `cmd.Run()` on the podman subprocess: the child exited with a
code (possibly zero), or it could not be launched at all. -/
inductive PodmanRunOutcome
  | exited (code : Int)
  | launchFailed
deriving Repr, DecidableEq

/-- Oracle fixing the result of every call the engine backend makes during
one invocation. -/
structure Engine where
  inspectImageExists : Bool
  removeImageOk : Bool
  buildImageOk : Bool
  upgradePullOk : Bool
  createOutcome : CreateOutcome
  createPullOk : Bool
  retryCreateOk : Bool
  attachOk : Bool
  startOk : Bool
  waitOutcome : WaitOutcome
  podmanRunOutcome : PodmanRunOutcome
deriving Repr, DecidableEq

/-- Backend calls issued by ExecuteCommand, in order. -/
inductive Event
  | inspectImage (name : String)
  | removeImage (name : String)
  | buildImage (dockerfile : String) (tag : String)
  | pullImage (ref : String)
  | containerCreate (req : ContainerRequest)
  | containerAttach
  | containerStart
  | containerWait
  | podmanRun (args : List String)
deriving Repr, DecidableEq

/-- Failure classes of ExecuteCommand; each corresponds to one `return 1, err`
site in podman.go. -/
inductive ExecError
  | buildFailed
  | portParseFailed
  | pullFailed
  | createFailed
  | attachFailed
  | startFailed
  | waitFailed
  | cancelled
  | podmanLaunchFailed
deriving Repr, DecidableEq

/-- Process-wide signal-subscription state (`os/signal` registry).
`nextChan` allocates channel identities; `subscribed` are the channels
registered with `signal.Notify`; `forwarders` are the forwarding goroutines
still running, keyed by the channel they `range` over (such a goroutine
terminates only when its channel is closed — nothing in the code closes one). -/
structure SigState where
  nextChan : Nat
  subscribed : List Nat
  forwarders : List Nat
deriving Repr, DecidableEq

/-- Signal state at process start: nothing subscribed. -/
def sigInit : SigState := { nextChan := 0, subscribed := [], forwarders := [] }

/-- Call `signal.Notify(c, ...)`: register the channel. -/
def signalNotify (s : SigState) (c : Nat) : SigState :=
  { s with subscribed := s.subscribed ++ [c] }

/-- Call `signal.Stop(c)`: unregister exactly the given channel. -/
def signalStop (s : SigState) (c : Nat) : SigState :=
  { s with subscribed := s.subscribed.filter (fun c0 => c0 != c) }

/-- Call `make(chan os.Signal, 1)`: allocate a fresh channel. -/
def newChan (s : SigState) : Nat × SigState :=
  (s.nextChan, { s with nextChan := s.nextChan + 1 })

/-- Function `utils.SetupSignalHandler` (signals.go): make a channel, `signal.Notify`
it, and spawn the forwarding goroutine ranging over it. -/
def setupSignalHandler (s : SigState) : SigState :=
  let (c, s1) := newChan s
  let s2 := signalNotify s1 c
  { s2 with forwarders := s2.forwarders ++ [c] }

/-- Function `utils.CleanupSignalHandler` (signals.go): the code calls
`signal.Stop(make(chan os.Signal, 1))`, i.e. it stops a freshly allocated
channel, not the one registered by `SetupSignalHandler`. -/
def cleanupSignalHandler (s : SigState) : SigState :=
  let (c, s1) := newChan s
  signalStop s1 c

/-- Result of one ExecuteCommand invocation: the `(int, error)` return value,
the CommandConfig as the caller observes it afterwards (the code receives a
pointer and assigns `cfg.Image`), the backend event trace, and the final
signal-subscription state. -/
structure ExecResult where
  exitCode : Int
  error : Option ExecError
  cfg : CommandConfig
  events : List Event
  sig : SigState
deriving Repr

/-- The derived image name `fmt.Sprintf("dox-%s:latest", command)`. -/
def inlineImageName (command : String) : String :=
  "dox-" ++ command ++ ":latest"

/-- Inline-build block of `DockerRuntime.ExecuteCommand` (latest revision,
lines 636-661): inspect; under upgrade remove only an existing image
(failure non-fatal); build when the image is now absent (failure fatal);
on success overwrite `cfg.Image` with the derived name. -/
def resolveInline (e : Engine) (cfg : CommandConfig) (command : String) (upgrade : Bool) :
    List Event × Except ExecError CommandConfig :=
  match cfg.build with
  | none => ([], .ok cfg)
  | some b =>
    if b.dockerfileInline = "" then ([], .ok cfg)
    else
      let name := inlineImageName command
      if upgrade && e.inspectImageExists then
        -- the image existed and is removed (failure only logged); it is then
        -- absent, so the build always runs
        if e.buildImageOk then
          ([Event.inspectImage name, Event.removeImage name,
            Event.buildImage b.dockerfileInline name], .ok { cfg with image := name })
        else
          ([Event.inspectImage name, Event.removeImage name,
            Event.buildImage b.dockerfileInline name], .error .buildFailed)
      else if e.inspectImageExists then
        -- exists and no upgrade requested: reuse the cached image
        ([Event.inspectImage name], .ok { cfg with image := name })
      else
        -- image absent: build it
        if e.buildImageOk then
          ([Event.inspectImage name, Event.buildImage b.dockerfileInline name],
            .ok { cfg with image := name })
        else
          ([Event.inspectImage name, Event.buildImage b.dockerfileInline name],
            .error .buildFailed)

/-- Resolution block of `PodmanRuntime.ExecuteCommand` (lines 35-59): under
upgrade, an inline build removes the derived image unconditionally (failure
ignored) and always rebuilds; a plain image is pulled (failure non-fatal). -/
def podmanResolve (e : Engine) (cfg : CommandConfig) (command : String) (upgrade : Bool) :
    List Event × Except ExecError CommandConfig :=
  if cfg.hasInlineBuild then
    match cfg.build with
    | none => ([], .ok cfg)
    | some b =>
      let name := inlineImageName command
      let evRm := if upgrade then [Event.removeImage name] else []
      let evB := [Event.buildImage b.dockerfileInline name]
      if e.buildImageOk then (evRm ++ evB, .ok { cfg with image := name })
      else (evRm ++ evB, .error .buildFailed)
  else if upgrade then ([Event.pullImage cfg.image], .ok cfg)
  else ([], .ok cfg)

/-- Call `ContainerCreate` with its single retry (podman.go lines 745-761): a
"No such image" failure triggers one pull (pull failure fatal) and exactly one
retried create (second failure fatal); any other failure is immediately fatal. -/
def createPhase (e : Engine) (req : ContainerRequest) : List Event × Except ExecError Unit :=
  match e.createOutcome with
  | .ok => ([.containerCreate req], .ok ())
  | .otherErr => ([.containerCreate req], .error .createFailed)
  | .noSuchImage =>
    if e.createPullOk then
      if e.retryCreateOk then
        ([.containerCreate req, .pullImage req.image, .containerCreate req], .ok ())
      else
        ([.containerCreate req, .pullImage req.image, .containerCreate req],
          .error .createFailed)
    else ([.containerCreate req, .pullImage req.image], .error .pullFailed)

/-- Attach/start/signal/wait section of `DockerRuntime.ExecuteCommand`
(lines 763-831).  `SetupSignalHandler` runs after a successful start and
`CleanupSignalHandler` is deferred, so it runs on every later return path. -/
def runPhase (e : Engine) (sig0 : SigState) :
    List Event × SigState × Int × Option ExecError :=
  if !e.attachOk then ([.containerAttach], sig0, 1, some .attachFailed)
  else if !e.startOk then
    ([.containerAttach, .containerStart], sig0, 1, some .startFailed)
  else
    let sig1 := setupSignalHandler sig0
    let sigF := cleanupSignalHandler sig1
    let evs := [Event.containerAttach, Event.containerStart, Event.containerWait]
    match e.waitOutcome with
    | .waitErr => (evs, sigF, 1, some .waitFailed)
    | .exited c => (evs, sigF, c, none)
    | .ctxDone => (evs, sigF, 1, some .cancelled)

/-- Function `DockerRuntime.ExecuteCommand` (podman.go, latest revision): inline-build
resolution, request construction, opportunistic upgrade pull, create (with one
retry), attach, start, signal forwarding, wait. -/
def dockerExecuteCommand (e : Engine) (host : Host) (cfg0 : CommandConfig)
    (command : String) (args : List String) (upgrade : Bool) : ExecResult :=
  let (ev1, r1) := resolveInline e cfg0 command upgrade
  match r1 with
  | .error err => ⟨1, some err, cfg0, ev1, sigInit⟩
  | .ok cfg =>
    match buildContainerRequest host cfg args with
    | none => ⟨1, some .portParseFailed, cfg, ev1, sigInit⟩
    | some req =>
      let ev2 := if upgrade && !cfg.hasInlineBuild then [Event.pullImage cfg.image] else []
      match createPhase e req with
      | (ev3, .error err) => ⟨1, some err, cfg, ev1 ++ ev2 ++ ev3, sigInit⟩
      | (ev3, .ok _) =>
        let rp := runPhase e sigInit
        ⟨rp.2.2.1, rp.2.2.2, cfg, ev1 ++ ev2 ++ ev3 ++ rp.1, rp.2.1⟩

/-- Function `PodmanRuntime.ExecuteCommand` (podman.go lines 34-132): resolve, then run
the podman child process; a child exit code is returned as the container's
exit code, a launch failure yields `(1, err)`. -/
def podmanExecuteCommand (e : Engine) (host : Host) (cfg0 : CommandConfig)
    (command : String) (args : List String) (upgrade : Bool) : ExecResult :=
  let (ev1, r1) := podmanResolve e cfg0 command upgrade
  match r1 with
  | .error err => ⟨1, some err, cfg0, ev1, sigInit⟩
  | .ok cfg =>
    let argv := podmanArgs host cfg args
    match e.podmanRunOutcome with
    | .exited c => ⟨c, none, cfg, ev1 ++ [.podmanRun argv], sigInit⟩
    | .launchFailed => ⟨1, some .podmanLaunchFailed, cfg, ev1 ++ [.podmanRun argv], sigInit⟩

/-- Exit-code plumbing of `runCommand` (run.go lines 99-115): a non-nil error
from ExecuteCommand makes the process exit 1; otherwise the returned code is
passed to `os.Exit` unchanged. -/
def runExitCode (res : ExecResult) : Int :=
  match res.error with
  | some _ => 1
  | none => res.exitCode

/-- Image-resolution actions of the housekeeping `upgrade` command
(upgrade.go lines 58-85): an inline-build command only removes the derived
image; a SHA-pinned image is skipped; otherwise the image is pulled. -/
def upgradeCommandEvents (cfg : CommandConfig) (command : String) : List Event :=
  if cfg.hasInlineBuild then [.removeImage (inlineImageName command)]
  else if goStringContains cfg.image "@sha256:" then []
  else [.pullImage cfg.image]

/-- Number of `ContainerCreate` calls in a trace. -/
def countCreates (evs : List Event) : Nat :=
  (evs.filter fun ev => match ev with | .containerCreate _ => true | _ => false).length

/-- Number of `ImagePull` calls in a trace. -/
def countPulls (evs : List Event) : Nat :=
  (evs.filter fun ev => match ev with | .pullImage _ => true | _ => false).length

/-! ### Concrete fixtures used to instantiate the theorems -/

/-- A host whose stdin and stdout are both redirected (not terminals). -/
def hostPlain : Host :=
  { getenv := fun _ => "", cwd := "/home/u", uid := 1000, gid := 1000,
    stdinIsCharDevice := false, stdoutIsCharDevice := false,
    termWidth := 80, termHeight := 24 }

/-- A host exporting `FOO=bar` with `BAZ` unset. -/
def hostEnvFoo : Host :=
  { getenv := fun n => if n = "FOO" then "bar" else "", cwd := "/home/u",
    uid := 1000, gid := 1000, stdinIsCharDevice := true, stdoutIsCharDevice := true,
    termWidth := 80, termHeight := 24 }

/-- Registry-image command spec with no options. -/
def cfgPlain : CommandConfig :=
  { image := "alpine:3.19", build := none, volumes := [], environment := [],
    command := "", network := "", ports := [] }

/-- Command spec carrying an inline build definition. -/
def cfgInline : CommandConfig :=
  { image := "orig", build := some { dockerfileInline := "FROM alpine" },
    volumes := [], environment := [], command := "", network := "", ports := [] }

/-- Command spec declaring environment names `FOO` and `BAZ`. -/
def cfgEnv : CommandConfig :=
  { image := "alpine:3.19", build := none, volumes := [],
    environment := ["FOO", "BAZ"], command := "", network := "", ports := [] }

/-- Command spec with a port mapping on the default network. -/
def cfgPorts : CommandConfig :=
  { image := "alpine:3.19", build := none, volumes := [], environment := [],
    command := "", network := "", ports := ["8080:80"] }

/-- Command spec with a port mapping on the host network. -/
def cfgHostNet : CommandConfig :=
  { image := "alpine:3.19", build := none, volumes := [], environment := [],
    command := "", network := "host", ports := ["8080:80"] }

/-- Command spec with a digest-pinned image reference. -/
def cfgPinned : CommandConfig :=
  { image := "alpine@sha256:0123", build := none, volumes := [], environment := [],
    command := "", network := "", ports := [] }

/-- A concrete container-creation request (as built for `cfgPlain` on
`hostPlain`). -/
def reqPlain : ContainerRequest :=
  { image := "alpine:3.19", cmd := [], env := [], user := "1000:1000",
    workingDir := some "/workspace", attachStdin := true, attachStdout := true,
    attachStderr := true, openStdin := true, tty := false, exposedPorts := [],
    autoRemove := true, binds := ["/home/u:/workspace"], networkMode := none,
    portBindings := [], consoleSize := none }

/-- Engine where every call succeeds and the container exits 0. -/
def engineHappy : Engine :=
  { inspectImageExists := true, removeImageOk := true, buildImageOk := true,
    upgradePullOk := true, createOutcome := .ok, createPullOk := true,
    retryCreateOk := true, attachOk := true, startOk := true,
    waitOutcome := .exited 0, podmanRunOutcome := .exited 0 }

/-- Engine where the inline-build image does not exist yet. -/
def engineNoImage : Engine :=
  { engineHappy with inspectImageExists := false }

/-- Engine whose container exits with status 1. -/
def engineExit1 : Engine :=
  { engineHappy with waitOutcome := .exited 1, podmanRunOutcome := .exited 1 }

/-- Engine whose container exits with status 7. -/
def engineExit7 : Engine :=
  { engineHappy with waitOutcome := .exited 7, podmanRunOutcome := .exited 7 }

/-- Engine where `ContainerAttach` fails. -/
def engineAttachFail : Engine :=
  { engineHappy with attachOk := false }

/-- Engine where the first create reports "No such image" and the retry works. -/
def engineNoSuch : Engine :=
  { engineHappy with createOutcome := .noSuchImage }

/-! ## Helper lemmas -/

/-- A spec without an inline build definition goes straight through the
Docker resolution block. -/
theorem resolveInline_of_not_inline (e : Engine) (cfg : CommandConfig) (command : String)
    (upgrade : Bool) (h : cfg.hasInlineBuild = false) :
    resolveInline e cfg command upgrade = ([], .ok cfg) := by
  unfold CommandConfig.hasInlineBuild at h
  unfold resolveInline
  match hb : cfg.build with
  | none => rfl
  | some b =>
    rw [hb] at h
    simp only [bne_eq_false_iff_eq] at h
    simp [h]

/-- The Docker resolution block either keeps the spec or only overwrites its
image with the derived inline name. -/
theorem resolveInline_ok_cases (e : Engine) (cfg cfg' : CommandConfig) (command : String)
    (upgrade : Bool) (h : (resolveInline e cfg command upgrade).2 = .ok cfg') :
    cfg' = cfg ∨ cfg' = { cfg with image := inlineImageName command } := by
  unfold resolveInline at h
  split at h
  · exact .inl (Except.ok.inj h).symm
  · split at h
    · exact .inl (Except.ok.inj h).symm
    · split at h
      · split at h
        · exact .inr (Except.ok.inj h).symm
        · exact Except.noConfusion h
      · split at h
        · exact .inr (Except.ok.inj h).symm
        · split at h
          · exact .inr (Except.ok.inj h).symm
          · exact Except.noConfusion h

/-- A spec without an inline build definition goes straight through the
Podman resolution block, except for the opportunistic upgrade pull. -/
theorem podmanResolve_of_not_inline (e : Engine) (cfg : CommandConfig) (command : String)
    (upgrade : Bool) (h : cfg.hasInlineBuild = false) :
    podmanResolve e cfg command upgrade =
      (if upgrade then [Event.pullImage cfg.image] else [], .ok cfg) := by
  unfold podmanResolve
  rw [h]
  simp only [Bool.false_eq_true, if_false]
  by_cases hu : upgrade <;> simp [hu]

/-- The Podman resolution block either keeps the spec or only overwrites its
image with the derived inline name. -/
theorem podmanResolve_ok_cases (e : Engine) (cfg cfg' : CommandConfig) (command : String)
    (upgrade : Bool) (h : (podmanResolve e cfg command upgrade).2 = .ok cfg') :
    cfg' = cfg ∨ cfg' = { cfg with image := inlineImageName command } := by
  unfold podmanResolve at h
  by_cases hib : cfg.hasInlineBuild
  · rw [if_pos hib] at h
    match hb : cfg.build with
    | none => rw [hb] at h; exact .inl (Except.ok.inj h).symm
    | some b =>
      rw [hb] at h
      simp only at h
      split at h
      · exact .inr (Except.ok.inj h).symm
      · exact absurd h (by simp)
  · rw [if_neg hib] at h
    by_cases hu : upgrade <;> simp only [hu, if_pos, if_neg, Bool.false_eq_true] at h <;>
      exact .inl (Except.ok.inj h).symm

/-- Shape of a successfully built container request: every field as filled in
by `DockerRuntime.ExecuteCommand`, with the port tables coming from
`parsePortMappings` exactly when ports are declared off the host network. -/
theorem buildContainerRequest_eq_some (host : Host) (cfg : CommandConfig)
    (args : List String) (req : ContainerRequest)
    (h : buildContainerRequest host cfg args = some req) :
    ∃ pb ep,
      (if cfg.ports.length > 0 && cfg.network != "host"
        then parsePortMappings cfg.ports else some ([], [])) = some (pb, ep) ∧
      req = { image := cfg.image, cmd := buildCmd cfg args,
              env := buildEnv host.getenv cfg.environment,
              user := toString host.uid ++ ":" ++ toString host.gid,
              workingDir := if cfg.hasInlineBuild then none else some "/workspace",
              attachStdin := true, attachStdout := true, attachStderr := true,
              openStdin := true, tty := isTerminal host, exposedPorts := ep,
              autoRemove := true, binds := (host.cwd ++ ":/workspace") :: cfg.volumes,
              networkMode := if cfg.network != "" then some cfg.network else none,
              portBindings := pb,
              consoleSize := if isTerminal host
                then some (host.termHeight, host.termWidth) else none } := by
  unfold buildContainerRequest at h
  split at h
  case isTrue hc =>
    rcases hpm : parsePortMappings cfg.ports with _ | ⟨pb, ep⟩
    · rw [hpm] at h
      exact Option.noConfusion h
    · rw [hpm] at h
      rw [if_pos hc]
      exact ⟨pb, ep, rfl, (Option.some.inj h).symm⟩
  case isFalse hc =>
    rw [if_neg hc]
    exact ⟨[], [], rfl, (Option.some.inj h).symm⟩

/-! ## C1: exit-code policy -/

/-- An error-free run phase means the wait returned the container's exit
status, and that status is the returned code. -/
theorem runPhase_error_none (e : Engine) (sig0 : SigState)
    (h : (runPhase e sig0).2.2.2 = none) :
    e.waitOutcome = .exited ((runPhase e sig0).2.2.1) := by
  unfold runPhase at h ⊢
  rcases hA : e.attachOk
  · simp [hA] at h
  · rcases hS : e.startOk
    · simp [hA, hS] at h
    · rcases hW : e.waitOutcome <;> simp_all

/-- C1 counterexample: a fatal local failure (attach error) makes the process
exit with code 1, the same code produced by a container that legitimately
exits with status 1 — so local failures do not use a code outside the 0-255
space a container can return. -/
theorem c1_no_reserved_failure_code :
    (dockerExecuteCommand engineAttachFail hostPlain cfgPlain "x" [] false).error ≠ none ∧
    runExitCode (dockerExecuteCommand engineAttachFail hostPlain cfgPlain "x" [] false) = 1 ∧
    (dockerExecuteCommand engineExit1 hostPlain cfgPlain "x" [] false).error = none ∧
    runExitCode (dockerExecuteCommand engineExit1 hostPlain cfgPlain "x" [] false) = 1 := by
  decide

/-- C1 (amended): when the container is created, started and its exit event
received, the wrapper's process exit code is the container's reported status
code unchanged; every fatal local failure instead exits with the fixed
sentinel code 1 (a value inside the 0-255 container range, distinguished only
by the diagnostic line, not by value). -/
theorem c1_exit_code_policy (e : Engine) (host : Host) (cfg : CommandConfig)
    (command : String) (args : List String) (upgrade : Bool) (c : Int) (r : ExecResult)
    (hr : dockerExecuteCommand e host cfg command args upgrade = r) :
    (r.error = none → e.waitOutcome = .exited c → runExitCode r = c) ∧
    (r.error ≠ none → runExitCode r = 1) := by
  subst hr
  constructor
  · unfold dockerExecuteCommand
    repeat' split
    all_goals intro herr hw
    all_goals first
      | (have herr2 : (runPhase e sigInit).2.2.2 = none := herr
         have hrp := runPhase_error_none e sigInit herr2
         rw [hw] at hrp
         have hcode := WaitOutcome.exited.inj hrp
         simpa [runExitCode, herr2] using hcode.symm)
      | simp at herr
  · intro hne
    cases herr : (dockerExecuteCommand e host cfg command args upgrade).error with
    | none => exact absurd herr hne
    | some err => simp [runExitCode, herr]

/-- C1 witness: a container exiting with status 7 makes the wrapper exit
with 7. -/
theorem c1_exit_code_witness :
    runExitCode (dockerExecuteCommand engineExit7 hostPlain cfgPlain "x" [] false) = 7 :=
  (c1_exit_code_policy engineExit7 hostPlain cfgPlain "x" [] false 7 _ rfl).1
    (by decide) rfl

/-! ## C5: inline rebuild under upgrade -/

/-- C5 counterexample: an inline-build spec run with upgrade=true against an
engine that reports the image absent performs no remove attempt at all (the
Docker variant gates removal on an existence check), while the claim requires
a removal attempt even when the image does not exist.  The rebuild does
happen. -/
theorem c5_no_remove_when_image_absent :
    cfgInline.hasInlineBuild = true ∧
    Event.removeImage (inlineImageName "x") ∉
      (dockerExecuteCommand engineNoImage hostPlain cfgInline "x" [] true).events ∧
    Event.buildImage "FROM alpine" (inlineImageName "x") ∈
      (dockerExecuteCommand engineNoImage hostPlain cfgInline "x" [] true).events := by
  decide

/-- C5 (amended): for an inline-build spec under upgrade, the rebuild from the
inline definition always happens, a build failure is fatal, and the outcome
ignores removal failures; but the two variants differ on the remove attempt:
the Docker variant inspects first and attempts removal exactly when the image
exists, while the Podman variant attempts removal unconditionally. -/
theorem c5_inline_rebuild (e : Engine) (cfg : CommandConfig) (command : String)
    (b : BuildConfig) (hb : cfg.build = some b) (hne : b.dockerfileInline ≠ "") :
    Event.buildImage b.dockerfileInline (inlineImageName command) ∈
      (resolveInline e cfg command true).1 ∧
    (Event.removeImage (inlineImageName command) ∈ (resolveInline e cfg command true).1 ↔
      e.inspectImageExists = true) ∧
    ((resolveInline e cfg command true).2 =
        .ok { cfg with image := inlineImageName command } ↔ e.buildImageOk = true) ∧
    (∀ b', resolveInline { e with removeImageOk := b' } cfg command true =
      resolveInline e cfg command true) ∧
    Event.removeImage (inlineImageName command) ∈ (podmanResolve e cfg command true).1 ∧
    Event.buildImage b.dockerfileInline (inlineImageName command) ∈
      (podmanResolve e cfg command true).1 ∧
    ((podmanResolve e cfg command true).2 =
        .ok { cfg with image := inlineImageName command } ↔ e.buildImageOk = true) := by
  rcases hie : e.inspectImageExists <;> rcases hbk : e.buildImageOk <;>
    simp [resolveInline, podmanResolve, CommandConfig.hasInlineBuild, hb, hne, hie, hbk]

/-- C5 witness: the unconditional rebuild event for an inline-build spec under
upgrade, in both variants. -/
theorem c5_inline_rebuild_witness :
    Event.buildImage "FROM alpine" (inlineImageName "x") ∈
      (resolveInline engineHappy cfgInline "x" true).1 ∧
    Event.buildImage "FROM alpine" (inlineImageName "x") ∈
      (podmanResolve engineHappy cfgInline "x" true).1 :=
  ⟨(c5_inline_rebuild engineHappy cfgInline "x" ⟨"FROM alpine"⟩ rfl (by decide)).1,
    (c5_inline_rebuild engineHappy cfgInline "x" ⟨"FROM alpine"⟩ rfl (by decide)).2.2.2.2.2.1⟩

/-! ## C6: create-retry policy -/

/-- C6: container creation is attempted at most twice.  A successful first
create makes no pull; an "image absent" failure triggers exactly one pull
(pull failure fatal, one create attempt total) and, when the pull succeeds,
exactly one retried create whose failure is fatal; any other creation failure
is immediately fatal with no pull and no retry. -/
theorem c6_create_retry (e : Engine) (req : ContainerRequest) :
    countCreates (createPhase e req).1 ≤ 2 ∧
    (e.createOutcome = .ok → (createPhase e req).2 = .ok () ∧
      countCreates (createPhase e req).1 = 1 ∧ countPulls (createPhase e req).1 = 0) ∧
    (e.createOutcome = .otherErr → (createPhase e req).2 = .error .createFailed ∧
      countCreates (createPhase e req).1 = 1 ∧ countPulls (createPhase e req).1 = 0) ∧
    (e.createOutcome = .noSuchImage →
      countPulls (createPhase e req).1 = 1 ∧
      (e.createPullOk = false → (createPhase e req).2 = .error .pullFailed ∧
        countCreates (createPhase e req).1 = 1) ∧
      (e.createPullOk = true → countCreates (createPhase e req).1 = 2 ∧
        ((createPhase e req).2 = .ok () ↔ e.retryCreateOk = true))) := by
  rcases hco : e.createOutcome <;> rcases hpk : e.createPullOk <;>
    rcases hrk : e.retryCreateOk <;>
    simp [createPhase, countCreates, countPulls, hco, hpk, hrk]

/-- C6 witness: with "No such image" on the first create and a successful
pull, exactly two create calls and one pull call are made. -/
theorem c6_create_retry_witness :
    countCreates (createPhase engineNoSuch reqPlain).1 = 2 ∧
    countPulls (createPhase engineNoSuch reqPlain).1 = 1 :=
  ⟨((c6_create_retry engineNoSuch reqPlain).2.2.2 rfl).2.2 rfl |>.1,
    ((c6_create_retry engineNoSuch reqPlain).2.2.2 rfl).1⟩

/-! ## C7: pinned-digest pull skipping -/

/-- C7 counterexample: on the execution path with upgrade requested, a
digest-pinned image reference is passed to the pull capability — the
"pinned implies skip pull" rule is not applied there. -/
theorem c7_pinned_image_pulled_on_execution :
    goStringContains cfgPinned.image "@sha256:" = true ∧
    Event.pullImage cfgPinned.image ∈
      (dockerExecuteCommand engineHappy hostPlain cfgPinned "x" [] true).events := by
  decide

/-- C7 (amended): the housekeeping upgrade command skips the pull for a
digest-pinned image, but the execution path under upgrade always pulls the
declared image reference — pinned or not — whenever the request is
constructible. -/
theorem c7_pinned_skip_scope :
    (∀ (cfg : CommandConfig) (command : String),
      goStringContains cfg.image "@sha256:" = true →
      cfg.hasInlineBuild = false →
      upgradeCommandEvents cfg command = []) ∧
    (∀ (e : Engine) (host : Host) (cfg : CommandConfig) (command : String)
      (args : List String) (req : ContainerRequest),
      cfg.hasInlineBuild = false →
      buildContainerRequest host cfg args = some req →
      Event.pullImage cfg.image ∈
        (dockerExecuteCommand e host cfg command args true).events) := by
  constructor
  · intro cfg command hpin hib
    simp [upgradeCommandEvents, hib, hpin]
  · intro e host cfg command args req hib hreq
    unfold dockerExecuteCommand
    rw [resolveInline_of_not_inline e cfg command true hib]
    rcases h3 : createPhase e req with ⟨ev3, r3⟩
    cases r3 <;> simp [hreq, h3, hib]

/-- C7 witness: the upgrade command makes no pull for the pinned spec, while
the execution path pulls that same pinned reference. -/
theorem c7_pinned_skip_witness :
    upgradeCommandEvents cfgPinned "x" = [] ∧
    Event.pullImage cfgPinned.image ∈
      (dockerExecuteCommand engineHappy hostPlain cfgPinned "x" [] true).events := by
  have h : (buildContainerRequest hostPlain cfgPinned []).isSome := by decide
  exact ⟨c7_pinned_skip_scope.1 cfgPinned "x" (by decide) (by decide),
    c7_pinned_skip_scope.2 engineHappy hostPlain cfgPinned "x" []
      ((buildContainerRequest hostPlain cfgPinned []).get h) (by decide)
      (Option.some_get h).symm⟩

/-! ## C10: signal-handler teardown -/

/-- C10 (code bug evidence): on a fully successful invocation, the channel
registered by `SetupSignalHandler` (channel 0) is still subscribed and its
forwarding goroutine is still running after `ExecuteCommand` returns —
`CleanupSignalHandler` allocated and stopped a fresh channel (channel 1)
instead of the subscribed one. -/
theorem signal_subscription_not_torn_down :
    (dockerExecuteCommand engineHappy hostPlain cfgPlain "shell" [] false).sig =
      { nextChan := 2, subscribed := [0], forwarders := [0] } := by decide

/-! ## C8: the CommandSpec is not consumed read-only -/

/-- C8 counterexample: for an inline-build spec, the CommandConfig observed by
the caller after ExecuteCommand differs from the one passed in — both backend
variants overwrite `cfg.Image` with the derived image name. -/
theorem c8_spec_mutated :
    (dockerExecuteCommand engineHappy hostPlain cfgInline "x" [] false).cfg ≠ cfgInline ∧
    (podmanExecuteCommand engineHappy hostPlain cfgInline "x" [] false).cfg ≠ cfgInline := by
  decide

/-- C8 (amended): ExecuteCommand leaves every field of the spec unchanged
except the image, which both variants may overwrite — only with the derived
inline image name; specs without an inline build definition are never mutated. -/
theorem c8_readonly_except_image (e : Engine) (host : Host) (cfg : CommandConfig)
    (command : String) (args : List String) (upgrade : Bool) :
    ((dockerExecuteCommand e host cfg command args upgrade).cfg = cfg ∨
      (dockerExecuteCommand e host cfg command args upgrade).cfg =
        { cfg with image := inlineImageName command }) ∧
    (cfg.hasInlineBuild = false →
      (dockerExecuteCommand e host cfg command args upgrade).cfg = cfg) ∧
    ((podmanExecuteCommand e host cfg command args upgrade).cfg = cfg ∨
      (podmanExecuteCommand e host cfg command args upgrade).cfg =
        { cfg with image := inlineImageName command }) ∧
    (cfg.hasInlineBuild = false →
      (podmanExecuteCommand e host cfg command args upgrade).cfg = cfg) := by
  have hdoc : (dockerExecuteCommand e host cfg command args upgrade).cfg = cfg ∨
      (dockerExecuteCommand e host cfg command args upgrade).cfg =
        { cfg with image := inlineImageName command } := by
    unfold dockerExecuteCommand
    rcases h1 : resolveInline e cfg command upgrade with ⟨ev1, r1⟩
    cases r1 with
    | error err => simp [h1]
    | ok cfg1 =>
      have hcase := resolveInline_ok_cases e cfg cfg1 command upgrade (by rw [h1])
      cases hreq : buildContainerRequest host cfg1 args with
      | none => simpa [h1, hreq] using hcase
      | some req =>
        rcases h3 : createPhase e req with ⟨ev3, r3⟩
        cases r3 with
        | error err => simpa [h1, hreq, h3] using hcase
        | ok u => simpa [h1, hreq, h3] using hcase
  have hpod : (podmanExecuteCommand e host cfg command args upgrade).cfg = cfg ∨
      (podmanExecuteCommand e host cfg command args upgrade).cfg =
        { cfg with image := inlineImageName command } := by
    unfold podmanExecuteCommand
    rcases h1 : podmanResolve e cfg command upgrade with ⟨ev1, r1⟩
    cases r1 with
    | error err => simp [h1]
    | ok cfg1 =>
      have hcase := podmanResolve_ok_cases e cfg cfg1 command upgrade (by rw [h1])
      cases hrun : e.podmanRunOutcome with
      | exited c => simpa [h1, hrun] using hcase
      | launchFailed => simpa [h1, hrun] using hcase
  refine ⟨hdoc, ?_, hpod, ?_⟩
  · intro h
    unfold dockerExecuteCommand
    rw [resolveInline_of_not_inline e cfg command upgrade h]
    cases hreq : buildContainerRequest host cfg args with
    | none => simp [hreq]
    | some req =>
      rcases h3 : createPhase e req with ⟨ev3, r3⟩
      cases r3 with
      | error err => simp [hreq, h3]
      | ok u => simp [hreq, h3]
  · intro h
    unfold podmanExecuteCommand
    rw [podmanResolve_of_not_inline e cfg command upgrade h]
    cases hrun : e.podmanRunOutcome with
    | exited c => simp [hrun]
    | launchFailed => simp [hrun]

/-- C8 witness: a spec without an inline build definition comes back unchanged
from the Docker variant. -/
theorem c8_readonly_witness :
    (dockerExecuteCommand engineHappy hostPlain cfgPlain "x" [] false).cfg = cfgPlain :=
  (c8_readonly_except_image engineHappy hostPlain cfgPlain "x" [] false).2.1 (by decide)

/-! ## C4: TTY request policy -/

/-- C4 counterexample: with both host streams redirected (no terminal), the
Podman variant still passes `-it`, requesting an interactive TTY. -/
theorem tty_requested_on_redirected_streams :
    isTerminal hostPlain = false ∧ "-it" ∈ podmanArgs hostPlain cfgPlain [] := by decide

/-- C4 (amended): the Docker variant requests a TTY in the creation request
exactly when both host stdin and stdout are character devices; the Podman
variant always passes `-it` regardless of the host terminal state. -/
theorem c4_tty_policy (host : Host) (cfg : CommandConfig) (args : List String)
    (req : ContainerRequest) (hreq : buildContainerRequest host cfg args = some req) :
    req.tty = (host.stdinIsCharDevice && host.stdoutIsCharDevice) ∧
    "-it" ∈ podmanArgs host cfg args := by
  obtain ⟨pb, ep, hm, hr⟩ := buildContainerRequest_eq_some host cfg args req hreq
  subst hr
  exact ⟨rfl, by simp [podmanArgs]⟩

/-- C4 witness: on a host where both streams are terminals, the Docker request
carries the TTY flag. -/
theorem c4_tty_witness :
    ∃ req, buildContainerRequest hostEnvFoo cfgPlain [] = some req ∧ req.tty = true := by
  have h : (buildContainerRequest hostEnvFoo cfgPlain []).isSome := by decide
  refine ⟨(buildContainerRequest hostEnvFoo cfgPlain []).get h, (Option.some_get h).symm, ?_⟩
  rw [(c4_tty_policy hostEnvFoo cfgPlain []
    ((buildContainerRequest hostEnvFoo cfgPlain []).get h) (Option.some_get h).symm).1]
  decide

/-! ## C9: working-directory policy -/

/-- C9 counterexample: for an inline-build spec the Podman variant still sets
an explicit working directory (`-w /workspace`) instead of letting the image's
build-time working directory take precedence. -/
theorem workdir_override_on_inline_build :
    cfgInline.hasInlineBuild = true ∧ "-w" ∈ podmanArgs hostPlain cfgInline [] := by decide

/-- C9 (amended): the Docker variant sets the working directory to /workspace
exactly when the image is not produced from an inline build definition, and
omits the override otherwise; the Podman variant always passes
`-w /workspace`, inline build or not. -/
theorem c9_workdir_policy (host : Host) (cfg : CommandConfig) (args : List String)
    (req : ContainerRequest) (hreq : buildContainerRequest host cfg args = some req) :
    req.workingDir = (if cfg.hasInlineBuild then none else some "/workspace") ∧
    ∃ pre post, podmanArgs host cfg args = pre ++ ["-w", "/workspace"] ++ post := by
  obtain ⟨pb, ep, hm, hr⟩ := buildContainerRequest_eq_some host cfg args req hreq
  subst hr
  refine ⟨rfl, ⟨["run", "--rm", "-it", "--network=host",
    "--user=" ++ toString host.uid ++ ":" ++ toString host.gid],
    ["-v", host.cwd ++ ":/workspace"]
      ++ (cfg.volumes.map (fun v => ["-v", v])).flatten
      ++ ((buildEnv host.getenv cfg.environment).map (fun e => ["-e", e])).flatten
      ++ [cfg.image] ++ buildCmd cfg args, ?_⟩⟩
  simp [podmanArgs]

/-! ## C2: environment forwarding -/

/-- Lists concatenated around a separator character absent from both prefixes
split uniquely at that separator. -/
theorem append_eq_sep_inj (a : List Char) : ∀ (b x y : List Char),
    ('=' : Char) ∉ a → ('=' : Char) ∉ b →
    a ++ '=' :: x = b ++ '=' :: y → a = b ∧ x = y := by
  induction a with
  | nil =>
    intro b x y _ hb h
    cases b with
    | nil => simpa using h
    | cons c bs =>
      rw [List.nil_append, List.cons_append] at h
      obtain ⟨h1, -⟩ := List.cons.inj h
      subst h1
      simp at hb
  | cons ca as ih =>
    intro b x y ha hb h
    cases b with
    | nil =>
      rw [List.cons_append, List.nil_append] at h
      obtain ⟨h1, -⟩ := List.cons.inj h
      subst h1
      simp at ha
    | cons cb bs =>
      rw [List.cons_append, List.cons_append] at h
      obtain ⟨h1, h2⟩ := List.cons.inj h
      subst h1
      have has : ('=' : Char) ∉ as := fun hm => ha (List.mem_cons_of_mem _ hm)
      have hbs : ('=' : Char) ∉ bs := fun hm => hb (List.mem_cons_of_mem _ hm)
      obtain ⟨hab, hxy⟩ := ih bs x y has hbs h2
      exact ⟨by rw [hab], hxy⟩

/-- Two `name=value` entries with names free of `=` agree on name and value. -/
theorem mkEnvEntry_inj (n1 v1 n2 v2 : String)
    (h1 : ('=' : Char) ∉ n1.data) (h2 : ('=' : Char) ∉ n2.data)
    (h : mkEnvEntry n1 v1 = mkEnvEntry n2 v2) : n1 = n2 ∧ v1 = v2 := by
  unfold mkEnvEntry at h
  have hd : n1.data ++ '=' :: v1.data = n2.data ++ '=' :: v2.data := by
    have hc := congrArg String.data h
    have hq : ("=" : String).data = ['='] := rfl
    simpa [String.data_append, hq] using hc
  obtain ⟨ha, hb⟩ := append_eq_sep_inj n1.data n2.data v1.data v2.data h1 h2 hd
  constructor
  · ext1
    exact ha
  · ext1
    exact hb

/-- One step of the environment loop. -/
theorem buildEnv_cons (g : String → String) (n : String) (rest : List String) :
    buildEnv g (n :: rest) =
      (if g n = "" then [] else [mkEnvEntry n (g n)]) ++ buildEnv g rest := by
  by_cases hg : g n = "" <;> simp [buildEnv, List.filterMap_cons, hg]

/-- An entry for a name that is either undeclared or bound to the empty value
never appears in the built environment table. -/
theorem buildEnv_not_mem_of (g : String → String) (names : List String)
    (name v : String) (hnoeq : ∀ n ∈ names, ('=' : Char) ∉ n.data)
    (hname : ('=' : Char) ∉ name.data)
    (hcond : name ∉ names ∨ g name = "") :
    mkEnvEntry name v ∉ buildEnv g names := by
  intro hmem
  simp only [buildEnv, List.mem_filterMap] at hmem
  obtain ⟨n, hn, hf⟩ := hmem
  by_cases hg : g n = ""
  · rw [if_pos hg] at hf
    exact Option.noConfusion hf
  · rw [if_neg hg] at hf
    obtain ⟨heq, -⟩ := mkEnvEntry_inj n (g n) name v (hnoeq n hn) hname
      (Option.some.inj hf)
    subst heq
    rcases hcond with hnm | hge
    · exact hnm hn
    · exact hg hge

/-- The entry of a name with a non-empty value occurs in the built environment
table as often as the name is declared. -/
theorem buildEnv_count (g : String → String) (names : List String) (name : String)
    (hnoeq : ∀ n ∈ names, ('=' : Char) ∉ n.data)
    (hname : ('=' : Char) ∉ name.data) (hval : g name ≠ "") :
    (buildEnv g names).count (mkEnvEntry name (g name)) = names.count name := by
  induction names with
  | nil => simp [buildEnv]
  | cons n rest ih =>
    have hnoeqr : ∀ m ∈ rest, ('=' : Char) ∉ m.data :=
      fun m hm => hnoeq m (List.mem_cons_of_mem n hm)
    have hnn : ('=' : Char) ∉ n.data := hnoeq n (List.mem_cons_self n rest)
    have ihr := ih hnoeqr
    rw [buildEnv_cons, List.count_cons]
    by_cases hg : g n = ""
    · rw [if_pos hg, List.nil_append, ihr]
      have hne : (n == name) = false := by
        rw [beq_eq_false_iff_ne]
        intro hh
        rw [hh] at hg
        exact hval hg
      rw [hne]
      simp
    · rw [if_neg hg, List.singleton_append, List.count_cons, ihr]
      by_cases hn : n = name
      · subst hn
        simp
      · have hx : (mkEnvEntry n (g n) == mkEnvEntry name (g name)) = false := by
          rw [beq_eq_false_iff_ne]
          intro hh
          exact hn (mkEnvEntry_inj n (g n) name (g name) hnn hname hh).1
        have hy : (n == name) = false := by
          rw [beq_eq_false_iff_ne]
          exact hn
        rw [hx, hy]

/-- C2: a declared environment name whose host value is empty contributes no
entry to the built request's environment table; a name bound to a non-empty
value `v` appears exactly once, as `name=v`.  The table is the same
`buildEnv` filter in both backend variants: it is the `Env` of the Docker
request, and the Podman argv embeds it as its `-e` section. -/
theorem c2_env_table (host : Host) (cfg : CommandConfig) (args : List String)
    (req : ContainerRequest) (name : String)
    (hreq : buildContainerRequest host cfg args = some req)
    (hnoeq : ∀ n ∈ cfg.environment, ('=' : Char) ∉ n.data)
    (hcount : cfg.environment.count name = 1) :
    req.env = buildEnv host.getenv cfg.environment ∧
    (host.getenv name = "" → ∀ v, mkEnvEntry name v ∉ req.env) ∧
    (host.getenv name ≠ "" →
      req.env.count (mkEnvEntry name (host.getenv name)) = 1) ∧
    (∃ pre post, podmanArgs host cfg args =
      pre ++ ((buildEnv host.getenv cfg.environment).map (fun en => ["-e", en])).flatten
        ++ post) := by
  have hmem : name ∈ cfg.environment := by
    refine List.count_pos_iff.mp ?_
    rw [hcount]
    exact Nat.one_pos
  have hname : ('=' : Char) ∉ name.data := hnoeq name hmem
  obtain ⟨pb, ep, hm, hr⟩ := buildContainerRequest_eq_some host cfg args req hreq
  subst hr
  refine ⟨rfl, ?_, ?_, ?_⟩
  · intro hempty v
    exact buildEnv_not_mem_of host.getenv cfg.environment name v hnoeq hname (.inr hempty)
  · intro hval
    have := buildEnv_count host.getenv cfg.environment name hnoeq hname hval
    rw [hcount] at this
    exact this
  · refine ⟨["run", "--rm", "-it", "--network=host",
      "--user=" ++ toString host.uid ++ ":" ++ toString host.gid,
      "-w", "/workspace", "-v", host.cwd ++ ":/workspace"]
        ++ (cfg.volumes.map (fun v => ["-v", v])).flatten,
      [cfg.image] ++ buildCmd cfg args, ?_⟩
    simp [podmanArgs]

/-- C2 witness: with `FOO=bar` exported and `BAZ` unset, the built table
contains `FOO=bar` exactly once and no `BAZ` entry at all. -/
theorem c2_env_witness :
    ∃ req, buildContainerRequest hostEnvFoo cfgEnv [] = some req ∧
      req.env.count (mkEnvEntry "FOO" "bar") = 1 ∧
      (∀ v, mkEnvEntry "BAZ" v ∉ req.env) := by
  have h : (buildContainerRequest hostEnvFoo cfgEnv []).isSome := by decide
  refine ⟨(buildContainerRequest hostEnvFoo cfgEnv []).get h, (Option.some_get h).symm,
    ?_, ?_⟩
  · exact (c2_env_table hostEnvFoo cfgEnv [] _ "FOO" (Option.some_get h).symm
      (by decide) (by decide)).2.2.1 (by decide)
  · exact (c2_env_table hostEnvFoo cfgEnv [] _ "BAZ" (Option.some_get h).symm
      (by decide) (by decide)).2.1 (by decide)

/-! ## C3: port-binding table -/

/-- A successful `ParsePortSpec` yields at least one mapping: the expansion
loop runs `endPort - startPort + 1 ≥ 1` times. -/
theorem parsePortSpec_ne_nil (p : String) (ms : List PortMapping)
    (h : parsePortSpec p = some ms) : ms ≠ [] := by
  unfold parsePortSpec at h
  repeat' split at h
  all_goals first
    | exact Option.noConfusion h
    | (obtain rfl := Option.some.inj h; simp)

/-- Go map assignment never empties the map. -/
theorem mapSet_ne_nil (m : List (String × List PortBinding)) (k : String)
    (v : List PortBinding) : mapSet m k v ≠ [] := by
  cases m with
  | nil => simp [mapSet]
  | cons kv rest =>
    obtain ⟨k0, v0⟩ := kv
    unfold mapSet
    split <;> simp

/-- Recording mappings preserves (or establishes) non-emptiness of the
binding table. -/
theorem addMappings_fst_ne_nil (ms : List PortMapping)
    (acc : List (String × List PortBinding) × List String)
    (h : acc.1 ≠ [] ∨ ms ≠ []) : (addMappings acc ms).1 ≠ [] := by
  induction ms generalizing acc with
  | nil =>
    have := h.resolve_right (by simp)
    simpa [addMappings] using this
  | cons m rest ih =>
    have hstep : addMappings acc (m :: rest) =
        addMappings (mapSet acc.1 m.port [m.binding], setAdd acc.2 m.port) rest := rfl
    rw [hstep]
    exact ih _ (.inl (mapSet_ne_nil _ _ _))

/-- The port-mapping fold preserves non-emptiness of the binding table. -/
theorem parsePortMappingsAux_fst_ne_nil (ports : List String)
    (acc out : List (String × List PortBinding) × List String)
    (hacc : acc.1 ≠ []) (h : parsePortMappingsAux ports acc = some out) :
    out.1 ≠ [] := by
  induction ports generalizing acc with
  | nil => exact Option.some.inj h ▸ hacc
  | cons p rest ih =>
    unfold parsePortMappingsAux at h
    cases hps : parsePortSpec p with
    | none => rw [hps] at h; exact Option.noConfusion h
    | some ms =>
      rw [hps] at h
      exact ih _ (addMappings_fst_ne_nil ms _ (.inl hacc)) h

/-- Function `parsePortMappings` on a non-empty declared port list yields a non-empty
binding table. -/
theorem parsePortMappings_fst_ne_nil (ports : List String)
    (pb : List (String × List PortBinding)) (ep : List String)
    (hne : ports ≠ []) (h : parsePortMappings ports = some (pb, ep)) : pb ≠ [] := by
  cases ports with
  | nil => exact absurd rfl hne
  | cons p rest =>
    unfold parsePortMappings parsePortMappingsAux at h
    cases hps : parsePortSpec p with
    | none => rw [hps] at h; exact Option.noConfusion h
    | some ms =>
      rw [hps] at h
      exact parsePortMappingsAux_fst_ne_nil rest _ (pb, ep)
        (addMappings_fst_ne_nil ms ([], []) (.inr (parsePortSpec_ne_nil p ms hps))) h

/-- C3: for a spec whose network mode is not the literal "host" and whose port
list is non-empty, the built request's port-binding table is non-empty
whenever the port strings parse; for network mode "host" the table is empty
regardless of the declared ports. -/
theorem c3_port_bindings (host : Host) (cfg : CommandConfig) (args : List String)
    (req : ContainerRequest) (hreq : buildContainerRequest host cfg args = some req) :
    (cfg.network = "host" → req.portBindings = []) ∧
    (cfg.network ≠ "host" → cfg.ports ≠ [] → req.portBindings ≠ []) := by
  obtain ⟨pb, ep, hm, hr⟩ := buildContainerRequest_eq_some host cfg args req hreq
  subst hr
  constructor
  · intro hh
    have hcond : ¬ ((decide (cfg.ports.length > 0) && cfg.network != "host") = true) := by
      simp [hh]
    rw [if_neg hcond] at hm
    obtain ⟨h1, -⟩ := Prod.mk.inj (Option.some.inj hm)
    exact h1.symm
  · intro hnet hports
    have hcond : (decide (cfg.ports.length > 0) && cfg.network != "host") = true := by
      simp [hnet, List.length_pos, hports]
    rw [if_pos hcond] at hm
    exact parsePortMappings_fst_ne_nil cfg.ports pb ep hports hm

/-- C3 witness: `8080:80` on the default network produces a non-empty binding
table; the same port on `network=host` produces an empty one. -/
theorem c3_port_bindings_witness :
    (∃ req, buildContainerRequest hostPlain cfgPorts [] = some req ∧
      req.portBindings ≠ []) ∧
    (∃ req, buildContainerRequest hostPlain cfgHostNet [] = some req ∧
      req.portBindings = []) := by
  have h1 : (buildContainerRequest hostPlain cfgPorts []).isSome := by decide
  have h2 : (buildContainerRequest hostPlain cfgHostNet []).isSome := by decide
  constructor
  · exact ⟨(buildContainerRequest hostPlain cfgPorts []).get h1, (Option.some_get h1).symm,
      (c3_port_bindings hostPlain cfgPorts [] _ (Option.some_get h1).symm).2
        (by decide) (by decide)⟩
  · exact ⟨(buildContainerRequest hostPlain cfgHostNet []).get h2, (Option.some_get h2).symm,
      (c3_port_bindings hostPlain cfgHostNet [] _ (Option.some_get h2).symm).1 rfl⟩

/-- C9 witness: a plain registry-image spec gets the fixed workspace path as
its working directory in the Docker request. -/
theorem c9_workdir_witness :
    ∃ req, buildContainerRequest hostPlain cfgPlain [] = some req ∧
      req.workingDir = some "/workspace" := by
  have h : (buildContainerRequest hostPlain cfgPlain []).isSome := by decide
  refine ⟨(buildContainerRequest hostPlain cfgPlain []).get h, (Option.some_get h).symm, ?_⟩
  rw [(c9_workdir_policy hostPlain cfgPlain []
    ((buildContainerRequest hostPlain cfgPlain []).get h) (Option.some_get h).symm).1]
  decide

end Dox
